import Mathlib

/-!
# Verification of the incremental HTTP extraction engine

Shallow embedding of the retry policy, cursor state manager, pagination
resolver, partition router and request-parameter builders of the Airbyte
connectors (source-salesforce, source-klaviyo, source-mixpanel), together
with proofs and refutations of the specified properties.

Timestamps (ISO datetime strings parsed by `pendulum`) are modelled as
natural numbers: parsing is order-preserving and rendering is injective,
so `Nat` with its linear order is a faithful model of the comparable
cursor domain.  Request-parameter dictionaries are modelled as
association lists of string pairs, with python `dict` insertion-order
semantics for get/set.
-/

/-! ## Request-parameter dictionaries -/

/-- A request-parameter mapping: python `dict[str, str]` with insertion
order, modelled as an association list. -/
abbrev Params : Type := List (String × String)

/-- `d.get(k)`: first binding of key `k`, if any. -/
def pget : Params → String → Option String
  | [], _ => none
  | kv :: t, k => if kv.1 = k then some kv.2 else pget t k

/-- `d[k] = v`: overwrite the first binding of `k` in place, else append
(python dicts have unique keys, so this is dict assignment). -/
def pset : Params → String → String → Params
  | [], k, v => [(k, v)]
  | kv :: t, k, v => if kv.1 = k then (k, v) :: t else kv :: pset t k v

/-- Python truthiness of `d.get(k)`: present and a non-empty string. -/
def ptruthy (o : Option String) : Bool :=
  match o with
  | some s => !s.isEmpty
  | none => false

/-- Python `needle in hay` on strings: substring test. -/
def strContains (needle hay : String) : Bool :=
  decide (needle.data <:+: hay.data)

/-! ## Salesforce retry policy (`rate_limiting.py`, `should_give_up`)

`should_give_up(exc)` is the give-up classifier handed to
`backoff.on_exception`; it sees the exception's response status and the
`errorCode` of the first entry of the structured JSON error body.
`response_present` models `exc.response is not None`. -/

/-- `should_give_up` from
`source_salesforce/async_salesforce/rate_limiting.py` lines 30-41:
`give_up = response_present and status != 429 and 400 <= status < 500`,
then, for a 403, the body's error code is inspected and
`REQUEST_LIMIT_EXCEEDED` sets `give_up = True`. -/
def should_give_up (response_present : Bool) (status : Nat) (errorCode : String) : Bool :=
  let give_up := response_present && !(status == 429)
    && decide (400 ≤ status) && decide (status < 500)
  let give_up :=
    if status == 403 then
      if errorCode == "REQUEST_LIMIT_EXCEEDED" then true else give_up
    else give_up
  give_up

/-! ## Klaviyo retry policy (`streams.py`, `backoff_time` / `read_records`) -/

/-- A Klaviyo HTTP response as the retry policy sees it: status code,
optional `Retry-After` header (absent or empty header ↦ `none`, seconds
value ↦ `some r`), and the records of its page. -/
structure KResponse where
  status : Nat
  retryAfter : Option Nat
  records : List Nat
deriving DecidableEq, Repr

/-- `KlaviyoStream.backoff_time` (`streams.py` lines 104-112): on a 429,
parse `Retry-After`; if the parsed value is truthy (non-zero) and at
least `max_time`, raise `KlaviyoBackoffError` (modelled as `.error`);
otherwise return the parsed value as the wait time.  Non-429 responses
fall through returning `None`. -/
def klaviyo_backoff_time (max_time : Nat) (resp : KResponse) : Except String (Option Nat) :=
  if resp.status == 429 then
    match resp.retryAfter with
    | some r =>
        if r ≠ 0 ∧ max_time ≤ r then
          Except.error "KlaviyoBackoffError"
        else
          Except.ok (some r)
    | none => Except.ok none
  else
    Except.ok none

/-- Modelled from the spec: the CDK `HttpStream.read_records` loop (the
`super().read_records` call in `streams.py` line 122; the CDK is not
under `src/`).  Per the spec's Retry Policy and Orchestrator contracts it
issues requests page by page, consults `backoff_time` on each response,
and a fatal `KlaviyoBackoffError` raised there propagates past the retry
loop, aborting the read with the records accumulated so far. -/
def httpStreamRead (max_time : Nat) : List KResponse → List Nat × Option String
  | [] => ([], none)
  | r :: rest =>
    match klaviyo_backoff_time max_time r with
    | Except.error e => ([], some e)
    | Except.ok _ =>
      let tail := httpStreamRead max_time rest
      (r.records ++ tail.1, tail.2)

/-- `KlaviyoStream.read_records` (`streams.py` lines 114-124): delegate
to the inner read loop and swallow `KlaviyoBackoffError`, ending the
stream read with the records yielded so far. -/
def klaviyo_read_records (max_time : Nat) (resps : List KResponse) : List Nat :=
  (httpStreamRead max_time resps).1

/-! ## Klaviyo request-parameter builders (`streams.py`)

A stream state dict can hold the cursor field and a nested `"archived"`
sub-dict; the sub-dict in turn can hold the cursor field.  `cursor = none`
models an absent cursor key; `archived = none` models an absent
`"archived"` key, `archived = some sub` a present sub-dict whose own
cursor entry is `sub`. -/

/-- A Klaviyo stream state mapping. -/
structure KState where
  cursor : Option Nat
  archived : Option (Option Nat)
deriving DecidableEq, Repr

/-- `Option.or`-like helper, python `a or b` on optional scalars whose
truthy values are exactly the present ones (cursor strings are
non-empty). -/
def optOr (a b : Option Nat) : Option Nat :=
  match a with
  | some x => some x
  | none => b

/-- The rendered incremental filter clause
`f"greater-than({cursor_field},{latest_cursor.isoformat()})"`. -/
def mkGreaterThan (field : String) (bound : Nat) : String :=
  "greater-than(" ++ field ++ "," ++ toString bound ++ ")"

/-- `KlaviyoStream.request_params` (`streams.py` lines 63-73): a truthy
(non-empty) `next_page_token` is returned as-is; otherwise only the
static page-size parameter, when the configured `page_size` is truthy. -/
def klaviyoStream_request_params (page_size : Option Nat) (next_page_token : Params) : Params :=
  if next_page_token ≠ [] then
    next_page_token
  else
    match page_size with
    | some n => if n ≠ 0 then [("page[size]", toString n)] else []
    | none => []

/-- `IncrementalKlaviyoStream.request_params` (`streams.py` lines
140-164): start from the base params; when they carry no truthy
`filter`, derive the incremental bound from the state's cursor value
(`or` the configured start date), take `max` with the state's cursor
value again, clamp with `min` to `now - 3` seconds, render the
`greater-than` filter, and always set `sort`. -/
def incrementalKlaviyoStream_request_params (page_size : Option Nat) (cursor_field : String)
    (start_ts : Option Nat) (now : Nat) (stream_state : Option KState)
    (next_page_token : Params) : Params :=
  let st := stream_state.getD ⟨none, none⟩
  let params := klaviyoStream_request_params page_size next_page_token
  if ptruthy (pget params "filter") then
    params
  else
    let stream_state_cursor_value := st.cursor
    let latest_cursor := optOr stream_state_cursor_value start_ts
    let params :=
      match latest_cursor with
      | some lc =>
        let lc :=
          match stream_state_cursor_value with
          | some s => Nat.max lc s
          | none => lc
        let lc := Nat.min lc (now - 3)
        pset params "filter" (mkGreaterThan cursor_field lc)
      | none => params
    pset params "sort" cursor_field

/-- `Campaigns.request_params` (`streams.py` lines 249-262): the
incremental params (cursor field `updated_at`) with the slice's channel
filter appended to — or installed as — the `filter` entry.
`slice_filter` is `stream_slice["filter"]`. -/
def campaigns_request_params (page_size : Option Nat) (start_ts : Option Nat) (now : Nat)
    (stream_state : Option KState) (slice_filter : String) (next_page_token : Params) : Params :=
  let params := incrementalKlaviyoStream_request_params page_size "updated_at" start_ts now
    stream_state next_page_token
  match pget params "filter" with
  | some f => pset params "filter" (f ++ "," ++ slice_filter)
  | none => pset params "filter" slice_filter

/-- `ArchivedRecordsStream.request_params` (`streams.py` lines 180-195):
read the nested `"archived"` sub-state, delegate to the base stream's
(incremental) builder with that sub-state, then guarantee the
`equals(archived,true)` clause in `filter`, appending only when the
clause is not already a substring. -/
def archivedRecordsStream_request_params (page_size : Option Nat) (cursor_field : String)
    (start_ts : Option Nat) (now : Nat) (stream_state : Option KState)
    (next_page_token : Params) : Params :=
  let archived_stream_state : Option (Option Nat) :=
    match stream_state with
    | some st => st.archived
    | none => none
  let params := incrementalKlaviyoStream_request_params page_size cursor_field start_ts now
    (archived_stream_state.map (fun c => ⟨c, none⟩)) next_page_token
  let archived_filter := "equals(archived,true)"
  match pget params "filter" with
  | some f =>
    if strContains archived_filter f then params
    else pset params "filter" (f ++ "," ++ archived_filter)
  | none => pset params "filter" archived_filter

/-! ## Klaviyo cursor state manager (`streams.py`, `get_updated_state`) -/

/-- A record as the cursor manager sees it: the parsed cursor value and
the `attributes.archived` flag (`.get("archived", False)`). -/
structure KRecord where
  cursor : Nat
  archived : Bool
deriving DecidableEq, Repr

/-- `KlaviyoStream.get_updated_state` (`streams.py` lines 89-102): the
stored cursor (defaulting to the configured start date) is compared with
the record's cursor and the maximum is stored back under the cursor
field; other state entries are untouched. -/
def klaviyoStream_get_updated_state (start_ts : Option Nat) (st : KState) (rec : KRecord) : KState :=
  let current := optOr st.cursor start_ts
  let latest :=
    match current with
    | some c => Nat.max rec.cursor c
    | none => rec.cursor
  { st with cursor := some latest }

/-- `StreamWithArchivedRecords.get_updated_state` (`streams.py` lines
208-221): an archived record updates (and wholly replaces) the nested
`"archived"` sub-state from its own low-water-mark; a non-archived
record is delegated to the base implementation. -/
def streamWithArchivedRecords_get_updated_state (start_ts : Option Nat) (st : KState)
    (rec : KRecord) : KState :=
  if rec.archived then
    let current := optOr (match st.archived with | some sub => sub | none => none) start_ts
    let latest :=
      match current with
      | some c => Nat.max rec.cursor c
      | none => rec.cursor
    { st with archived := some (some latest) }
  else
    klaviyoStream_get_updated_state start_ts st rec

/-- Feeding a finite sequence of records one at a time through
`KlaviyoStream.get_updated_state`. -/
def klaviyoRunUpdates (start_ts : Option Nat) (st : KState) (recs : List KRecord) : KState :=
  recs.foldl (klaviyoStream_get_updated_state start_ts) st

/-! ## Mixpanel Engage pagination strategy (`components.py`,
`EngagePaginationStrategy.next_page_token`)

The strategy is stateful through `self._total`; it is modelled by
explicit state passing: the function takes the retained total (`none`
for unset/`None`) and returns the new retained total together with the
token. -/

/-- A decoded Engage response: `page`, `total` (present only on the
first page) and `session_id` as `decoded_response.get(...)` sees them. -/
structure EngageResponse where
  page : Option Nat
  total : Option Nat
  session_id : Option Nat
deriving DecidableEq, Repr

/-- The `{session_id, page}` pagination token. -/
structure EngageToken where
  session_id : Option Nat
  page : Nat
deriving DecidableEq, Repr

/-- `EngagePaginationStrategy.next_page_token` (`components.py` lines
281-302): a truthy response `total` replaces the retained total; when
the retained total is truthy, the page index is present, and
`total > page_size * (page + 1)`, the token `{session_id, page + 1}` is
returned with the total retained; otherwise the retained total is
cleared and `None` is returned. -/
def engage_next_page_token (page_size : Nat) (st : Option Nat) (resp : EngageResponse) :
    Option Nat × Option EngageToken :=
  let stTotal : Option Nat :=
    match resp.total with
    | some t => if t ≠ 0 then some t else st
    | none => st
  match stTotal, resp.page with
  | some t, some p =>
    if t ≠ 0 ∧ page_size * (p + 1) < t then
      (stTotal, some ⟨resp.session_id, p + 1⟩)
    else
      (none, none)
  | _, _ => (none, none)

/-- Driving Engage pagination to exhaustion: page `k` of a partition
whose provider-side total is `T` decodes to
`{page: k, total: T if k == 0}`.  Returns the number of pages fetched;
`fuel` bounds the recursion and is chosen large enough by
`engagePagesFetched`. -/
def engageDrive (page_size T : Nat) : Nat → Option Nat → Nat → Nat
  | 0, _, _ => 0
  | fuel + 1, st, k =>
    let resp : EngageResponse := ⟨some k, if k == 0 then some T else none, none⟩
    match engage_next_page_token page_size st resp with
    | (st', some _) => 1 + engageDrive page_size T fuel st' (k + 1)
    | (_, none) => 1

/-- The number of pages fetched when paginating a partition with `total = T`. -/
def engagePagesFetched (page_size T : Nat) : Nat :=
  engageDrive page_size T (T + 1) none 0

/-! ## Mixpanel Funnels partition router (`components.py`,
`FunnelsSubstreamPartitionRouter.stream_slices`)

The parent stream is modelled by the slices it enumerates under a
full-refresh read, each with its partition and the messages
`read_records` yields for it.  Record payloads are flat field
mappings with `Nat` values. -/

/-- A message yielded by the parent stream's `read_records`: an
`AirbyteMessage` of type RECORD, an `AirbyteMessage` of any other type
(log/trace), or a `Record`/mapping payload. -/
inductive ParentMsg where
  | airbyteRec (data : List (String × Nat))
  | airbyteLog
  | plainRec (data : List (String × Nat))
deriving DecidableEq, Repr

/-- The record payload of a parent message; `none` for the non-record
`AirbyteMessage` types that the router skips with `continue`. -/
def msgData : ParentMsg → Option (List (String × Nat))
  | ParentMsg.airbyteRec d => some d
  | ParentMsg.airbyteLog => none
  | ParentMsg.plainRec d => some d

/-- `dpath.util.get` on a flat record (`KeyError` ↦ `none`), and
`record.get("name")`. -/
def lookupField (d : List (String × Nat)) (k : String) : Option Nat :=
  match List.find? (fun kv => kv.1 == k) d with
  | some kv => some kv.2
  | none => none

/-- One parent slice: its own partition and the messages read for it. -/
structure ParentSlice where
  partition : List (String × Nat)
  messages : List ParentMsg
deriving DecidableEq, Repr

/-- A partition emitted for the Funnels child stream:
`{partition_field: value, "funnel_name": record.get("name"),
"parent_slice": parent partition}`. -/
structure FunnelSlice where
  partitionKey : String
  value : Nat
  funnelName : Option Nat
  parentSlice : List (String × Nat)
deriving DecidableEq, Repr

/-- The inner record loop of
`FunnelsSubstreamPartitionRouter.stream_slices` (`components.py` lines
239-263), with the `empty_parent_slice` flag threaded exactly as in the
source: skip non-record messages, skip records whose `parent_field` path
is absent (`KeyError` → `pass`), and emit a partition for each usable
record, clearing the flag. -/
def funnelsProcess (parent_field partition_field : String) (pp : List (String × Nat)) :
    List ParentMsg → Bool → List FunnelSlice × Bool
  | [], empty => ([], empty)
  | m :: ms, empty =>
    match msgData m with
    | none => funnelsProcess parent_field partition_field pp ms empty
    | some d =>
      match lookupField d parent_field with
      | none => funnelsProcess parent_field partition_field pp ms empty
      | some v =>
        let rest := funnelsProcess parent_field partition_field pp ms false
        (⟨partition_field, v, lookupField d "name", pp⟩ :: rest.1, rest.2)

/-- `FunnelsSubstreamPartitionRouter.stream_slices` (`components.py`
lines 222-266) for one parent stream config: loop over the parent's
full-refresh slices, process each slice's records, and on an empty
parent slice `yield from []` before moving on. -/
def funnels_stream_slices (parent_field partition_field : String) :
    List ParentSlice → List FunnelSlice
  | [] => []
  | sl :: rest =>
    let r := funnelsProcess parent_field partition_field sl.partition sl.messages true
    (if r.2 then r.1 ++ ([] : List FunnelSlice) else r.1)
      ++ funnels_stream_slices parent_field partition_field rest

/-! ## Dictionary helper lemmas -/

lemma pget_pset_self (ps : Params) (k v : String) : pget (pset ps k v) k = some v := by
  induction ps with
  | nil => simp [pset, pget]
  | cons a t ih =>
    by_cases hak : a.1 = k
    · simp [pset, pget, hak]
    · simp [pset, pget, hak, ih]

lemma pget_pset_ne (ps : Params) (k v k' : String) (h : k' ≠ k) :
    pget (pset ps k v) k' = pget ps k' := by
  induction ps with
  | nil => simp [pset, pget, Ne.symm h]
  | cons a t ih =>
    by_cases hak : a.1 = k
    · simp [pset, pget, hak, Ne.symm h]
    · by_cases ha' : a.1 = k'
      · simp [pset, pget, hak, ha', h]
      · simp [pset, pget, hak, ha', ih]

lemma strContains_self (s : String) : strContains s s = true := by
  simp [strContains, List.infix_refl]

lemma strContains_append_left (s x : String) : strContains s (x ++ s) = true := by
  simp only [strContains, decide_eq_true_iff, String.data_append]
  exact (List.suffix_append x.data s.data).isInfix

/-! ## C1 -/

/-- C1 (code bug): the spec requires a 403 response whose error body
carries `REQUEST_LIMIT_EXCEEDED` to be classified as retryable
(`give_up = False`), but `should_give_up` returns `True` for it — the
dedicated 403 branch re-asserts the give-up verdict instead of clearing
it (and is therefore dead code, since a 403 already yields `True`).
For every other 403 error code the classifier gives up, as specified. -/
theorem salesforce_should_give_up_403_limit_exceeded :
    should_give_up true 403 "REQUEST_LIMIT_EXCEEDED" = true
    ∧ should_give_up true 403 "INVALID_SESSION_ID" = true := by
  constructor <;> rfl

/-! ## C2 -/

/-- C2 (counterexample): starting from a stored cursor of `10` and
feeding the single-record sequence `[5]`, the stored cursor stays `10`,
which is not the maximum cursor value seen in the sequence (`5`). -/
theorem klaviyo_cursor_not_max_of_sequence :
    (klaviyoRunUpdates none ⟨some 10, none⟩ [⟨5, false⟩]).cursor = some 10
    ∧ (10 : Nat) ≠ 5 := by
  constructor <;> decide

lemma klaviyoRunUpdates_from_some (start : Option Nat) (rs : List KRecord) :
    ∀ (st : KState) (x : Nat), st.cursor = some x →
      (klaviyoRunUpdates start st rs).cursor
        = some (List.foldl (fun a q => Nat.max a q.cursor) x rs) := by
  induction rs with
  | nil => intro st x hx; simpa [klaviyoRunUpdates] using hx
  | cons q qs ih =>
    intro st x hx
    have hstep : (klaviyoStream_get_updated_state start st q).cursor
        = some (Nat.max x q.cursor) := by
      simp [klaviyoStream_get_updated_state, optOr, hx, Nat.max_comm]
    have := ih (klaviyoStream_get_updated_state start st q) (Nat.max x q.cursor) hstep
    simpa [klaviyoRunUpdates, List.foldl] using this

lemma foldl_max_init (rs : List KRecord) :
    ∀ a b : Nat, List.foldl (fun x q => Nat.max x q.cursor) (Nat.max a b) rs
      = Nat.max a (List.foldl (fun x q => Nat.max x q.cursor) b rs) := by
  induction rs with
  | nil => intro a b; rfl
  | cons q qs ih =>
    intro a b
    simp only [List.foldl]
    have h : Nat.max (Nat.max a b) q.cursor = Nat.max a (Nat.max b q.cursor) :=
      Nat.max_assoc a b q.cursor
    rw [h, ih]

/-- C2 (amended): after feeding a non-empty record sequence through
`KlaviyoStream.get_updated_state`, the stored cursor equals the maximum
of the initial effective cursor (stored value, else the configured start
date) and every cursor value seen in the sequence; and each individual
update never moves a stored cursor backward. -/
theorem klaviyo_cursor_merge_max_monotone (start : Option Nat) (st : KState) (r : KRecord)
    (rs : List KRecord) :
    (klaviyoRunUpdates start st (r :: rs)).cursor
      = some (Nat.max ((optOr st.cursor start).getD 0)
          (List.foldl (fun a q => Nat.max a q.cursor) r.cursor rs))
    ∧ ∀ (st' : KState) (v : Nat) (q : KRecord), st'.cursor = some v →
        v ≤ (klaviyoStream_get_updated_state start st' q).cursor.getD 0 := by
  constructor
  · have hstep : (klaviyoStream_get_updated_state start st r).cursor
        = some (Nat.max ((optOr st.cursor start).getD 0) r.cursor) := by
      cases h : optOr st.cursor start with
      | none => simp [klaviyoStream_get_updated_state, h]
      | some c => simp [klaviyoStream_get_updated_state, h, Nat.max_comm]
    have := klaviyoRunUpdates_from_some start rs
      (klaviyoStream_get_updated_state start st r) _ hstep
    rw [show klaviyoRunUpdates start st (r :: rs)
        = klaviyoRunUpdates start (klaviyoStream_get_updated_state start st r) rs from rfl]
    rw [this, foldl_max_init]
  · intro st' v q hv
    simp [klaviyoStream_get_updated_state, optOr, hv]

/-! ## C3 -/

/-- C3 (counterexample): a 429 response whose `Retry-After` value `0`
meets the configured `max_time` of `0` is not escalated to the fatal
outcome: because `0` is falsy, `backoff_time` returns it as an ordinary
wait time instead of raising `KlaviyoBackoffError`. -/
theorem klaviyo_backoff_429_zero_not_fatal :
    klaviyo_backoff_time 0 ⟨429, some 0, []⟩ = Except.ok (some 0) := by
  rfl

lemma httpStreamRead_append (max_time : Nat) (pre l : List KResponse)
    (hpre : ∀ p ∈ pre, (klaviyo_backoff_time max_time p).isOk = true) :
    httpStreamRead max_time (pre ++ l)
      = ((pre.map KResponse.records).flatten ++ (httpStreamRead max_time l).1,
         (httpStreamRead max_time l).2) := by
  induction pre with
  | nil => simp
  | cons p ps ih =>
    have hp := hpre p (by simp)
    have hps : ∀ q ∈ ps, (klaviyo_backoff_time max_time q).isOk = true := by
      intro q hq; exact hpre q (by simp [hq])
    cases hcall : klaviyo_backoff_time max_time p with
    | error e => rw [hcall] at hp; simp [Except.isOk, Except.toBool] at hp
    | ok w =>
      show httpStreamRead max_time (p :: (ps ++ l)) = _
      simp only [httpStreamRead, hcall]
      rw [ih hps]
      simp [List.append_assoc]

/-- C3 (amended): for every 429 response whose `Retry-After` value is
positive and at least `max_time`, `backoff_time` raises the fatal
`KlaviyoBackoffError` without returning a wait time, the inner read loop
aborts there — responses after it are never consumed, so no further
retry attempt is spent — and `read_records` terminates the stream read
with exactly the records accumulated before the fatal response. -/
theorem klaviyo_backoff_429_exceeding_budget_fatal (max_time : Nat) (pre rest : List KResponse)
    (resp : KResponse) (r : Nat)
    (hpre : ∀ p ∈ pre, (klaviyo_backoff_time max_time p).isOk = true)
    (hs : resp.status = 429) (hr : resp.retryAfter = some r)
    (hr0 : 0 < r) (hmax : max_time ≤ r) :
    klaviyo_backoff_time max_time resp = Except.error "KlaviyoBackoffError"
    ∧ httpStreamRead max_time (pre ++ resp :: rest)
        = ((pre.map KResponse.records).flatten, some "KlaviyoBackoffError")
    ∧ klaviyo_read_records max_time (pre ++ resp :: rest)
        = (pre.map KResponse.records).flatten := by
  have hfatal : klaviyo_backoff_time max_time resp = Except.error "KlaviyoBackoffError" := by
    simp [klaviyo_backoff_time, hs, hr]
    omega
  have hmid : httpStreamRead max_time (resp :: rest) = ([], some "KlaviyoBackoffError") := by
    simp only [httpStreamRead, hfatal]
  have happ := httpStreamRead_append max_time pre (resp :: rest) hpre
  rw [hmid] at happ
  simp only [List.append_nil] at happ
  exact ⟨hfatal, happ, by simp [klaviyo_read_records, happ]⟩


/-! ## C4 -/

/-- C4 (counterexample): `Campaigns.request_params` called with the
non-empty pagination token `{"page[cursor]": "abc"}` does not return the
token verbatim — the incremental builder adds `sort` and the channel
slice filter is installed under `filter`. -/
theorem campaigns_token_not_returned_verbatim :
    campaigns_request_params none none 1000000000 none "equals(messages.channel,'email')"
        [("page[cursor]", "abc")]
      = [("page[cursor]", "abc"), ("sort", "updated_at"),
         ("filter", "equals(messages.channel,'email')")]
    ∧ [("page[cursor]", "abc"), ("sort", "updated_at"),
       ("filter", "equals(messages.channel,'email')")]
      ≠ ([("page[cursor]", "abc")] : Params) := by
  constructor
  · rfl
  · decide

/-- C4 (amended): the base builder `KlaviyoStream.request_params` honours
the token-replaces-everything contract — a non-empty token is returned
exactly, and without a token only the static page-size parameter is
contributed — while the subclass builders (incremental, `Campaigns`)
extend a token's parameters with sort/filter entries. -/
theorem klaviyo_base_token_self_sufficient (page_size : Option Nat) (t : Params) :
    (t ≠ [] → klaviyoStream_request_params page_size t = t)
    ∧ ∀ kv ∈ klaviyoStream_request_params page_size [], kv.1 = "page[size]" := by
  constructor
  · intro ht
    simp [klaviyoStream_request_params, ht]
  · intro kv hkv
    cases page_size with
    | none => simp [klaviyoStream_request_params] at hkv
    | some n =>
      by_cases hn : n = 0
      · simp [klaviyoStream_request_params, hn] at hkv
      · simp [klaviyoStream_request_params, hn] at hkv
        simp [hkv]

/-- C4 witness: the amended theorem applied at a concrete non-empty token. -/
theorem klaviyo_base_token_self_sufficient_witness :
    klaviyoStream_request_params (some 50) [("page[cursor]", "abc")] = [("page[cursor]", "abc")] :=
  (klaviyo_base_token_self_sufficient (some 50) [("page[cursor]", "abc")]).1 (by decide)

/-! ## C5 -/

/-- C5 (code bug): with stored cursor `100`, configured start bound
`200` and `now = 10^9`, the incremental filter bound sent is `100`: the
code computes `stored or start` and then takes a `max` of the stored
value with itself, so the configured start bound is ignored whenever a
stored value exists, while the spec requires the later of the two
(`min(max(100, 200), now - 3) = 200`). -/
theorem klaviyo_incremental_filter_ignores_start_bound :
    pget (incrementalKlaviyoStream_request_params none "updated_at" (some 200) 1000000000
        (some ⟨some 100, none⟩) []) "filter"
      = some (mkGreaterThan "updated_at" 100)
    ∧ Nat.min (Nat.max 100 200) (1000000000 - 3) = 200
    ∧ mkGreaterThan "updated_at" 100 ≠ mkGreaterThan "updated_at" 200 := by
  refine ⟨rfl, rfl, ?_⟩
  decide


/-! ## C6 -/

/-- C6: under the page+session strategy, with the retained total updated
from a truthy response `total`: when the retained total `t` and the page
index `p` are present and `t > page_size * (p + 1)`, the next token is
`{session_id, page: p + 1}` and the total stays retained; otherwise the
token is `None` and the retained total is cleared; in particular a
response omitting the page index terminates pagination. -/
theorem engage_next_page_token_spec (page_size : Nat) (st : Option Nat) (resp : EngageResponse) :
    (∀ t p, (match resp.total with
        | some u => if u ≠ 0 then some u else st
        | none => st) = some t → resp.page = some p → page_size * (p + 1) < t →
      engage_next_page_token page_size st resp = (some t, some ⟨resp.session_id, p + 1⟩))
    ∧ (∀ t p, (match resp.total with
        | some u => if u ≠ 0 then some u else st
        | none => st) = some t → resp.page = some p → ¬ page_size * (p + 1) < t →
      engage_next_page_token page_size st resp = (none, none))
    ∧ (resp.page = none → engage_next_page_token page_size st resp = (none, none))
    ∧ ((match resp.total with
        | some u => if u ≠ 0 then some u else st
        | none => st) = none →
      engage_next_page_token page_size st resp = (none, none)) := by
  refine ⟨?_, ?_, ?_, ?_⟩
  · intro t p hret hp hlt
    have ht0 : t ≠ 0 := by omega
    simp only [engage_next_page_token, hret, hp]
    simp [ht0, hlt]
  · intro t p hret hp hlt
    simp only [engage_next_page_token, hret, hp]
    simp [hlt]
  · intro hp
    simp [engage_next_page_token, hp]
  · intro hret
    simp only [engage_next_page_token, hret]

/-- C6 witness: a concrete second page exists — total `30`, page `1`,
page size `10` yield the token `{session_id: 7, page: 2}`. -/
theorem engage_next_page_token_spec_witness :
    engage_next_page_token 10 none ⟨some 1, some 30, some 7⟩ = (some 30, some ⟨some 7, 2⟩) :=
  (engage_next_page_token_spec 10 none ⟨some 1, some 30, some 7⟩).1 30 1 (by decide) rfl
    (by decide)

/-! ## C8 -/

/-- C8: the cursor-state update routes by the record's `archived` flag
and never writes across namespaces — an archived record leaves the
primary cursor entry unchanged, and a non-archived record leaves the
`"archived"` namespace unchanged. -/
theorem klaviyo_archived_state_frame (start : Option Nat) (st : KState) (rec : KRecord) :
    (rec.archived = true →
      (streamWithArchivedRecords_get_updated_state start st rec).cursor = st.cursor)
    ∧ (rec.archived = false →
      (streamWithArchivedRecords_get_updated_state start st rec).archived = st.archived) := by
  constructor
  · intro h
    simp [streamWithArchivedRecords_get_updated_state, h]
  · intro h
    simp [streamWithArchivedRecords_get_updated_state, h, klaviyoStream_get_updated_state]

/-- C8 witness: the frame property at a concrete archived record and a
concrete non-archived record. -/
theorem klaviyo_archived_state_frame_witness :
    (streamWithArchivedRecords_get_updated_state none ⟨some 4, some (some 9)⟩ ⟨7, true⟩).cursor
      = some 4 :=
  (klaviyo_archived_state_frame none ⟨some 4, some (some 9)⟩ ⟨7, true⟩).1 rfl


/-! ## C9 -/

lemma funnelsProcess_fst (pf kf : String) (pp : List (String × Nat)) (ms : List ParentMsg) :
    ∀ e : Bool, (funnelsProcess pf kf pp ms e).1
      = (ms.filterMap msgData).filterMap
          (fun d => (lookupField d pf).map (fun v => ⟨kf, v, lookupField d "name", pp⟩)) := by
  induction ms with
  | nil => intro e; simp [funnelsProcess]
  | cons m t ih =>
    intro e
    cases hm : msgData m with
    | none => simp [funnelsProcess, hm, ih]
    | some d =>
      cases hl : lookupField d pf with
      | none => simp [funnelsProcess, hm, hl, ih]
      | some v => simp [funnelsProcess, hm, hl, ih]

/-- C9: the partition router projects exactly the record messages whose
configured field path resolves — non-record messages are filtered out,
records missing the path are silently skipped while enumeration
continues, and a parent slice with zero usable records contributes
nothing without ending the enumeration of subsequent slices. -/
theorem funnels_stream_slices_spec (pf kf : String) (slices : List ParentSlice) :
    funnels_stream_slices pf kf slices
      = slices.flatMap (fun sl =>
          (sl.messages.filterMap msgData).filterMap
            (fun d => (lookupField d pf).map
              (fun v => ⟨kf, v, lookupField d "name", sl.partition⟩))) := by
  induction slices with
  | nil => simp [funnels_stream_slices]
  | cons sl rest ih =>
    simp only [funnels_stream_slices, List.flatMap_cons, ih, List.append_nil]
    rw [funnelsProcess_fst]
    split <;> rfl


/-! ## C10 -/

lemma pget_filter_base_none (page_size : Option Nat) :
    pget (klaviyoStream_request_params page_size []) "filter" = none := by
  cases page_size with
  | none => rfl
  | some n =>
    by_cases hn : n = 0
    · simp [klaviyoStream_request_params, hn, pget]
    · simp [klaviyoStream_request_params, hn, pget]

/-- C10: the archived-records secondary pass always sends a `filter`
containing the `equals(archived,true)` clause; the clause is never
duplicated (a base filter already containing it is passed through
unchanged); the builder ignores the primary cursor entry of the stream
state; and with an archived sub-state cursor `a`, no token and no
pre-existing filter, the incremental bound rendered is
`min(a, now - 3)` — read from the nested sub-state. -/
theorem archived_request_params_spec (page_size : Option Nat) (cf : String)
    (start : Option Nat) (now : Nat) (st : KState) (token : Params) :
    (∃ f, pget (archivedRecordsStream_request_params page_size cf start now (some st) token)
          "filter" = some f
        ∧ strContains "equals(archived,true)" f = true)
    ∧ (∀ c' : Option Nat,
        archivedRecordsStream_request_params page_size cf start now (some ⟨c', st.archived⟩) token
          = archivedRecordsStream_request_params page_size cf start now (some st) token)
    ∧ (∀ f, pget (incrementalKlaviyoStream_request_params page_size cf start now
            ((st.archived).map (fun c => ⟨c, none⟩)) token) "filter" = some f →
        strContains "equals(archived,true)" f = true →
        archivedRecordsStream_request_params page_size cf start now (some st) token
          = incrementalKlaviyoStream_request_params page_size cf start now
              ((st.archived).map (fun c => ⟨c, none⟩)) token)
    ∧ (∀ a, st.archived = some (some a) → token = [] →
        strContains "equals(archived,true)" (mkGreaterThan cf (Nat.min a (now - 3))) = false →
        pget (archivedRecordsStream_request_params page_size cf start now (some st) token)
            "filter"
          = some (mkGreaterThan cf (Nat.min a (now - 3)) ++ "," ++ "equals(archived,true)")) := by
  refine ⟨?_, ?_, ?_, ?_⟩
  · cases hf : pget (incrementalKlaviyoStream_request_params page_size cf start now
        ((st.archived).map (fun c => ⟨c, none⟩)) token) "filter" with
    | none =>
      refine ⟨"equals(archived,true)", ?_, strContains_self _⟩
      simp only [archivedRecordsStream_request_params]
      rw [hf]
      exact pget_pset_self _ _ _
    | some f =>
      by_cases hc : strContains "equals(archived,true)" f = true
      · refine ⟨f, ?_, hc⟩
        simp only [archivedRecordsStream_request_params]
        rw [hf]
        simp only [hc, if_true]
        exact hf
      · refine ⟨f ++ "," ++ "equals(archived,true)", ?_, ?_⟩
        · simp only [archivedRecordsStream_request_params]
          rw [hf]
          simp only [hc, Bool.false_eq_true, if_false]
          exact pget_pset_self _ _ _
        · have h2 : f ++ "," ++ "equals(archived,true)"
              = (f ++ ",") ++ "equals(archived,true)" := by
            rw [String.append_assoc]
          rw [h2]
          exact strContains_append_left _ _
  · intro c'
    rfl
  · intro f hf hc
    simp only [archivedRecordsStream_request_params]
    rw [hf]
    simp only [hc, if_true]
  · intro a ha htok hc
    subst htok
    have hp1 : pget (incrementalKlaviyoStream_request_params page_size cf start now
        ((st.archived).map (fun c => ⟨c, none⟩)) []) "filter"
        = some (mkGreaterThan cf (Nat.min a (now - 3))) := by
      rw [ha]
      simp only [Option.map_some']
      simp only [incrementalKlaviyoStream_request_params, Option.getD_some,
        pget_filter_base_none, ptruthy, Bool.false_eq_true, if_false, optOr, Nat.max_self]
      rw [pget_pset_ne _ _ _ _ (by decide)]
      exact pget_pset_self _ _ _
    simp only [archivedRecordsStream_request_params]
    rw [hp1]
    simp only [hc, Bool.false_eq_true, if_false]
    exact pget_pset_self _ _ _


/-! ## C7 -/

lemma lt_ceilDiv_iff (ps T m : Nat) (hps : 0 < ps) :
    m < (T + ps - 1) / ps ↔ ps * m < T := by
  rw [Nat.lt_iff_add_one_le, Nat.le_div_iff_mul_le hps]
  have h1 : (m + 1) * ps = ps * m + ps := by ring
  rw [h1]
  omega

lemma ceilDiv_le_self (ps T : Nat) (hps : 0 < ps) (hT : 0 < T) :
    (T + ps - 1) / ps ≤ T := by
  have h := Nat.le_mul_of_pos_left T hps
  rw [Nat.div_le_iff_le_mul_add_pred hps]
  omega

lemma engageDrive_some (ps T : Nat) (hps : 0 < ps) (hT : 0 < T) :
    ∀ fuel k, 0 < k → (T + ps - 1) / ps ≤ k + fuel → 0 < fuel →
      engageDrive ps T fuel (some T) k = Nat.max 1 ((T + ps - 1) / ps - k) := by
  intro fuel
  induction fuel with
  | zero => intro k _ _ hf; omega
  | succ f ih =>
    intro k hk hle _
    have hk0 : (k == 0) = false := by simp; omega
    simp only [engageDrive, hk0, Bool.false_eq_true, if_false, engage_next_page_token]
    by_cases hlt : ps * (k + 1) < T
    · have hT0 : T ≠ 0 := by omega
      simp only [hlt, hT0, ne_eq, not_false_eq_true, and_self, and_true, true_and, if_true]
      have hkc : k + 1 < (T + ps - 1) / ps := (lt_ceilDiv_iff ps T (k + 1) hps).mpr hlt
      have hf2 : 0 < f := by omega
      rw [ih (k + 1) (by omega) (by omega) hf2]
      have e1 : Nat.max 1 ((T + ps - 1) / ps - (k + 1)) = (T + ps - 1) / ps - (k + 1) :=
        Nat.max_eq_right (by omega)
      have e2 : Nat.max 1 ((T + ps - 1) / ps - k) = (T + ps - 1) / ps - k :=
        Nat.max_eq_right (by omega)
      rw [e1, e2]
      omega
    · have hkc : ¬ k + 1 < (T + ps - 1) / ps := fun hc =>
        hlt ((lt_ceilDiv_iff ps T (k + 1) hps).mp hc)
      simp only [hlt, and_false, if_false]
      have e2 : Nat.max 1 ((T + ps - 1) / ps - k) = 1 := Nat.max_eq_left (by omega)
      rw [e2]


/-- C7 (counterexample): with `total = 0` (and any positive page size,
here `1`), driving the page+session strategy still fetches one page —
the total is only learnt from the first response — while
`ceil(total / page_size) = 0`, so pagination does not terminate "within
`ceil(total / page_size)` pages" as stated. -/
theorem engage_pagination_zero_total_counterexample :
    engagePagesFetched 1 0 = 1 ∧ (0 + 1 - 1) / 1 = 0 ∧ ¬ (1 : Nat) ≤ 0 := by
  refine ⟨rfl, rfl, by omega⟩

/-- C7 (amended): for every `total ≥ 0` and `page_size > 0`, pagination
under the page+session strategy fetches exactly
`max 1 (ceil(total / page_size))` pages: the token becomes `None` no
later than after the `ceil(total / page_size)`-th page for positive
totals, and after the single mandatory first page when `total = 0`. -/
theorem engage_pagination_terminates (ps T : Nat) (hps : 0 < ps) :
    engagePagesFetched ps T = Nat.max 1 ((T + ps - 1) / ps) := by
  unfold engagePagesFetched
  by_cases hT : T = 0
  · subst hT
    have hdiv : (0 + ps - 1) / ps = 0 := Nat.div_eq_of_lt (by omega)
    rw [hdiv]
    simp only [engageDrive, engage_next_page_token]
    norm_num
  · have hT' : 0 < T := by omega
    have hk0 : ((0 : Nat) == 0) = true := rfl
    simp only [engageDrive, hk0, if_true, engage_next_page_token]
    have hT0 : T ≠ 0 := hT
    by_cases h1 : ps * (0 + 1) < T
    · have hc1 : 1 < (T + ps - 1) / ps := by
        rw [lt_ceilDiv_iff ps T 1 hps]
        omega
      have hcle : (T + ps - 1) / ps ≤ T := ceilDiv_le_self ps T hps hT'
      simp only [hT0, ne_eq, not_false_eq_true, h1, and_self, and_true, true_and, if_true]
      rw [engageDrive_some ps T hps hT' T 1 (by omega) (by omega) (by omega)]
      have e1 : Nat.max 1 ((T + ps - 1) / ps - 1) = (T + ps - 1) / ps - 1 :=
        Nat.max_eq_right (by omega)
      have e2 : Nat.max 1 ((T + ps - 1) / ps) = (T + ps - 1) / ps :=
        Nat.max_eq_right (by omega)
      rw [e1, e2]
      omega
    · have hc1 : ¬ 1 < (T + ps - 1) / ps := by
        rw [lt_ceilDiv_iff ps T 1 hps]
        omega
      have hcge : 1 ≤ (T + ps - 1) / ps := by
        rw [Nat.le_div_iff_mul_le hps]
        omega
      simp only [hT0, ne_eq, not_false_eq_true, true_and, h1, and_false, if_false, if_true]
      exact (Nat.max_eq_left (by omega)).symm

/-- C7 witness: `total = 5`, `page_size = 2` fetch exactly
`max 1 (ceil(5/2)) = 3` pages. -/
theorem engage_pagination_terminates_witness :
    (0 : Nat) < 2 ∧ engagePagesFetched 2 5 = Nat.max 1 ((5 + 2 - 1) / 2) :=
  ⟨by decide, engage_pagination_terminates 2 5 (by decide)⟩

/-- C2 witness: the amended merge law and a monotonicity instance at
concrete inputs — start `2`, stored `4`, records `[7, 3]`. -/
theorem klaviyo_cursor_merge_max_monotone_witness :
    (klaviyoRunUpdates (some 2) ⟨some 4, none⟩ [⟨7, false⟩, ⟨3, false⟩]).cursor
        = some (Nat.max ((optOr (some 4) (some 2)).getD 0)
            (List.foldl (fun a (q : KRecord) => Nat.max a q.cursor) 7 [⟨3, false⟩]))
    ∧ 3 ≤ (klaviyoStream_get_updated_state (some 2) ⟨some 3, none⟩ ⟨7, false⟩).cursor.getD 0 :=
  ⟨(klaviyo_cursor_merge_max_monotone (some 2) ⟨some 4, none⟩ ⟨7, false⟩ [⟨3, false⟩]).1,
   (klaviyo_cursor_merge_max_monotone (some 2) ⟨some 4, none⟩ ⟨7, false⟩ [⟨3, false⟩]).2
     ⟨some 3, none⟩ 3 ⟨7, false⟩ rfl⟩

/-- C3 witness: a concrete run — one clean page, then a 429 with
`Retry-After = 700 ≥ max_time = 600`: fatal, the trailing page is never
requested, and the stream read ends with the first page's records. -/
theorem klaviyo_backoff_429_exceeding_budget_fatal_witness :
    klaviyo_backoff_time 600 ⟨429, some 700, [9]⟩ = Except.error "KlaviyoBackoffError"
    ∧ httpStreamRead 600 ([⟨200, none, [1, 2]⟩] ++ ⟨429, some 700, [9]⟩ :: [⟨200, none, [3]⟩])
        = (([⟨200, none, [1, 2]⟩].map KResponse.records).flatten, some "KlaviyoBackoffError")
    ∧ klaviyo_read_records 600 ([⟨200, none, [1, 2]⟩] ++ ⟨429, some 700, [9]⟩ :: [⟨200, none, [3]⟩])
        = ([⟨200, none, [1, 2]⟩].map KResponse.records).flatten :=
  klaviyo_backoff_429_exceeding_budget_fatal 600 [⟨200, none, [1, 2]⟩] [⟨200, none, [3]⟩]
    ⟨429, some 700, [9]⟩ 700 (by decide) rfl rfl (by decide) (by decide)

/-- C10 witness: concrete archived sub-state cursor `100` with primary
cursor `900`, no token: the filter reads the sub-state bound `100` and
carries the archived clause. -/
theorem archived_request_params_spec_witness :
    pget (archivedRecordsStream_request_params none "updated" none 1000000000
        (some ⟨some 900, some (some 100)⟩) []) "filter"
      = some (mkGreaterThan "updated" (Nat.min 100 (1000000000 - 3)) ++ ","
          ++ "equals(archived,true)") :=
  (archived_request_params_spec none "updated" none 1000000000
      ⟨some 900, some (some 100)⟩ []).2.2.2 100 rfl rfl (by decide)
